import Mathlib

/-!
Shallow embedding of `src/delivery-engine.py` (the `MessageServer` ingestion
pipeline).  JSON parsing is treated as an external codec: an input line is
modelled as an already-parsed `Parsed` value.  Python machine behaviour that
the code relies on is embedded explicitly:
  * `isinstance(x, int)` is true for Python booleans (`bool` is a subclass of
    `int`), so `isIntPy` accepts both `jint` and `jbool`;
  * `bool | NoneType` has no `__origin__`, so `Base.validate` falls back to an
    `isinstance` check against the union, accepting booleans and `None`;
  * Python `==` identifies `True` with `1` and `False` with `0` (`pyEq`);
  * `str(True) = "True"`, `str(5) = "5"` (`pyStr`), used for recipient keys;
  * a raised exception is modelled as `Option.none` (for the validator) or as
    the `PRes.errored` result (for a `KeyError` escaping `_is_allowed_package`).
-/

namespace DeliveryEngine

/-- A JSON scalar value as decoded by the codec.  `jfloat` stands for any
float and `jcomposite` for any array or object appearing as a field value;
neither carries a payload because validation rejects both shapes without
inspecting their contents, so they never reach the stores. -/
inductive JValue where
  | jnull : JValue
  | jbool (b : Bool) : JValue
  | jint (n : Int) : JValue
  | jfloat : JValue
  | jstr (s : String) : JValue
  | jcomposite : JValue
deriving DecidableEq, Repr

/-- The result of `json.loads` on one input line: a syntax error, a non-object
JSON document (on which `.get` raises `AttributeError`), or an object. -/
inductive Parsed where
  | notJson : Parsed
  | nonDict : Parsed
  | dict (fields : List (String × JValue)) : Parsed
deriving DecidableEq, Repr

abbrev Dict := List (String × JValue)

/-- A validated event, the counterpart of `asdict(item)` for `SendPackage`
and `UpdatePackage`.  Fields keep their decoded `JValue` because Python keeps
the raw values (in particular a boolean passes the integer checks and is
stored as a boolean).  For `upd`, an absent optional preference key and an
explicit `null` both become `jnull`, exactly as `asdict` turns both into
`None`. -/
inductive Evt where
  | send (timestamp recipient_id sender_id package_id package_type : JValue) : Evt
  | upd (timestamp recipient_id personal_package marketing_package : JValue) : Evt
deriving DecidableEq, Repr

/-- A stored recipient dict.  `personal` / `marketing` are `none` when the
corresponding key is absent from the Python dict (not when it is `None`:
`_update_preference` only stores non-`None` values). -/
structure Rec where
  id : JValue
  personal : Option JValue
  marketing : Option JValue
deriving DecidableEq, Repr

/-- Python `==` on the scalar values that can appear in a validated event
(`None`, booleans, ints, strings).  Booleans compare equal to the ints `1`
and `0`, as in Python.  Floats and composites never survive validation, so
the catch-all `false` is never exercised on stored events. -/
def pyEq : JValue → JValue → Bool
  | .jnull, .jnull => true
  | .jbool a, .jbool b => a = b
  | .jint a, .jint b => a = b
  | .jbool a, .jint b => (if a then (1 : Int) else 0) = b
  | .jint a, .jbool b => a = (if b then (1 : Int) else 0)
  | .jstr a, .jstr b => a = b
  | _, _ => false

/-- Python `==` on two event dicts: same variant (same key set) and `pyEq`
on every field value. -/
def evtEq : Evt → Evt → Bool
  | .send t r sid pid pt, .send t2 r2 sid2 pid2 pt2 =>
      pyEq t t2 && pyEq r r2 && pyEq sid sid2 && pyEq pid pid2 && pyEq pt pt2
  | .upd t r p m, .upd t2 r2 p2 m2 =>
      pyEq t t2 && pyEq r r2 && pyEq p p2 && pyEq m m2
  | _, _ => false

/-- Python `x in list` using `==`. -/
def memEvt (e : Evt) (l : List Evt) : Bool :=
  l.any (fun x => evtEq e x)

/-- Python `str()` restricted to the values that can be a validated
`recipient_id` (ints and booleans); total on `JValue` for convenience. -/
def pyStr : JValue → String
  | .jint n => toString n
  | .jbool true => "True"
  | .jbool false => "False"
  | .jnull => "None"
  | .jstr s => s
  | .jfloat => "float"
  | .jcomposite => "composite"

/-- Python `x is True`. -/
def isTrue (v : JValue) : Bool :=
  v = .jbool true

/-- `isinstance(x, int)` — Python booleans are ints. -/
def isIntPy : JValue → Bool
  | .jint _ => true
  | .jbool _ => true
  | _ => false

/-- `isinstance(x, str)`. -/
def isStrPy : JValue → Bool
  | .jstr _ => true
  | _ => false

/-- `isinstance(x, bool | NoneType)`. -/
def isBoolOrNone : JValue → Bool
  | .jbool _ => true
  | .jnull => true
  | _ => false

/-- Python `dict.get` on the decoded object: with duplicate keys
`json.loads` keeps the last binding, so lookup returns the last match. -/
def dget : Dict → String → Option JValue
  | [], _ => none
  | (k, v) :: rest, key =>
      match dget rest key with
      | some w => some w
      | none => if k = key then some v else none

/-- Field access used by both validation and event construction: the value
under `k`, with `jnull` standing for a `None` default. -/
def getF (fs : Dict) (k : String) : JValue :=
  (dget fs k).getD .jnull

/-- String membership in a list of field names. -/
def strMem (x : String) (l : List String) : Bool :=
  l.any (fun y => x = y)

/-- Lookup in the recipients dict (unique keys, first match). -/
def lookupKey : List (String × Rec) → String → Option Rec
  | [], _ => none
  | (k, v) :: rest, key => if k = key then some v else lookupKey rest key

/-- Python dict assignment `d[key] = v`: replace in place if present,
append otherwise. -/
def setKey : List (String × Rec) → String → Rec → List (String × Rec)
  | [], key, v => [(key, v)]
  | (k, w) :: rest, key, v =>
      if k = key then (key, v) :: rest else (k, w) :: setKey rest key v

/-- Declared fields of `SendPackage` (its `__init__` keyword set). -/
def sendFieldNames : List String :=
  ["action", "timestamp", "recipient_id", "sender_id", "package_id", "package_type"]

/-- Declared fields of `UpdatePackage`. -/
def updFieldNames : List String :=
  ["action", "timestamp", "recipient_id", "personal_package", "marketing_package"]

/-- Fields of `UpdatePackage` without a default value. -/
def updRequiredNames : List String :=
  ["action", "timestamp", "recipient_id"]

/-- `Cls(**loaded_json)` succeeds iff every key is a declared field and every
field without a default is present. -/
def kwargsOk (allowed required : List String) (fs : Dict) : Bool :=
  (fs.map Prod.fst).all (fun k => strMem k allowed)
    && required.all (fun k => (dget fs k).isSome)

/-- `SendPackage(**d)` construction plus `SendPackage.validate`:
the `package_type` domain check, then the `Base.validate` field loop
(`isinstance` per field; booleans pass the `int` checks). -/
def sendOk (fs : Dict) : Bool :=
  kwargsOk sendFieldNames sendFieldNames fs
    && (getF fs "package_type" = .jstr "marketing"
          || getF fs "package_type" = .jstr "personal")
    && isStrPy (getF fs "timestamp")
    && isIntPy (getF fs "recipient_id")
    && isIntPy (getF fs "sender_id")
    && isIntPy (getF fs "package_id")

/-- `UpdatePackage(**d)` construction plus `UpdatePackage.validate`:
the at-least-one-preference check, then the `Base.validate` field loop
(the preference fields check against `bool | NoneType`). -/
def updOk (fs : Dict) : Bool :=
  kwargsOk updFieldNames updRequiredNames fs
    && !(getF fs "personal_package" = .jnull
          && getF fs "marketing_package" = .jnull)
    && isStrPy (getF fs "timestamp")
    && isIntPy (getF fs "recipient_id")
    && isBoolOrNone (getF fs "personal_package")
    && isBoolOrNone (getF fs "marketing_package")

/-- `asdict` of a validated `SendPackage`. -/
def mkSend (fs : Dict) : Evt :=
  .send (getF fs "timestamp") (getF fs "recipient_id") (getF fs "sender_id")
    (getF fs "package_id") (getF fs "package_type")

/-- `asdict` of a validated `UpdatePackage` (absent optional fields become
`None`, i.e. `jnull`). -/
def mkUpd (fs : Dict) : Evt :=
  .upd (getF fs "timestamp") (getF fs "recipient_id")
    (getF fs "personal_package") (getF fs "marketing_package")

/-- `MessageServer._validate_json`; `none` models any raised exception
(JSON syntax error, `.get` on a non-dict, missing or unrecognized action,
`TypeError` from `**kwargs`, or a failed `validate`). -/
def validateJson : Parsed → Option Evt
  | .notJson => none
  | .nonDict => none
  | .dict fs =>
      match dget fs "action" with
      | none => none
      | some a =>
          if a = .jnull then none
          else if a = .jstr "send_package" then
            if sendOk fs then some (mkSend fs) else none
          else if a = .jstr "update_preference" then
            if updOk fs then some (mkUpd fs) else none
          else none

/-- The server state: `_recipients`, `_packages`, `_dropped`,
`_max_packages_count`; `emitted` records the lines printed by
`_print_to_std` for accepted events. -/
structure ServerState where
  recipients : List (String × Rec)
  packages : List Evt
  dropped : Nat
  maxCount : Option Int
  emitted : List Evt
deriving DecidableEq, Repr

def initState (cap : Option Int) : ServerState :=
  { recipients := [], packages := [], dropped := 0, maxCount := cap, emitted := [] }

/-- The default-allow recipient dict built by `_process_package`. -/
def defaultRec (rid : JValue) : Rec :=
  { id := rid, personal := some (.jbool true), marketing := some (.jbool true) }

/-- `MessageServer._is_allowed_package`.  `none` models the `KeyError`
raised when the accessed preference key is absent; note the first condition
reads `marketing_package` unconditionally and the second reads
`personal_package` only when the first condition is false (Python
short-circuit evaluation). -/
def isAllowed (r : Rec) (pt : JValue) : Option Bool :=
  match r.marketing with
  | none => none
  | some mv =>
      if isTrue mv && pt = .jstr "marketing" then some true
      else
        match r.personal with
        | none => none
        | some pv =>
            if isTrue pv && pt = .jstr "personal" then some true
            else some false

/-- Lines 118–128 of `_update_preference`: build the partial recipient dict
from the supplied (non-`None`) fields, insert it if the recipient is absent,
then `dict.update` the stored recipient with it.  This happens before the
duplicate check and therefore also on duplicate events. -/
def applyPrefUpdate (recs : List (String × Rec)) (rid p m : JValue) :
    List (String × Rec) :=
  let key := pyStr rid
  let newRec : Rec :=
    { id := rid
      personal := if p = .jnull then none else some p
      marketing := if m = .jnull then none else some m }
  let recs1 := if (lookupKey recs key).isNone then setKey recs key newRec else recs
  match lookupKey recs1 key with
  | some old =>
      setKey recs1 key
        { id := rid
          personal := if p = .jnull then old.personal else some p
          marketing := if m = .jnull then old.marketing else some m }
  | none => recs1

/-- `MessageServer._update_preference` on a validated update event; the
returned `Bool` is the method's return value (`true` = accepted). -/
def updatePreference (s : ServerState) (ts rid p m : JValue) :
    ServerState × Bool :=
  let s1 := { s with recipients := applyPrefUpdate s.recipients rid p m }
  let ev := Evt.upd ts rid p m
  if memEvt ev s1.packages then
    ({ s1 with dropped := s1.dropped + 1 }, false)
  else
    ({ s1 with emitted := s1.emitted ++ [ev], packages := s1.packages ++ [ev] }, true)

/-- The distinct exits of `_process_package`: returned `True`, returned
`False` after the duplicate test, returned `False` after a preference
refusal, or let a `KeyError` escape to the caller. -/
inductive PRes where
  | acceptedP : PRes
  | dupP : PRes
  | refusedP : PRes
  | errored : PRes
deriving DecidableEq, Repr

/-- Lines 140–146 of `_process_package`: insert the default-allow recipient
dict when the recipient id is absent. -/
def ensureRec (recs : List (String × Rec)) (rid : JValue) : List (String × Rec) :=
  if (lookupKey recs (pyStr rid)).isNone
  then setKey recs (pyStr rid) (defaultRec rid)
  else recs

/-- `MessageServer._process_package` on a validated send event. -/
def processPackage (s : ServerState) (ts rid sid pid pt : JValue) :
    ServerState × PRes :=
  let key := pyStr rid
  let s1 := { s with recipients := ensureRec s.recipients rid }
  let ev := Evt.send ts rid sid pid pt
  if memEvt ev s1.packages then
    ({ s1 with dropped := s1.dropped + 1 }, .dupP)
  else
    match lookupKey s1.recipients key with
    | none => (s1, .errored)
    | some r =>
        match isAllowed r pt with
        | none => (s1, .errored)
        | some true =>
            ({ s1 with emitted := s1.emitted ++ [ev], packages := s1.packages ++ [ev] },
              .acceptedP)
        | some false => ({ s1 with dropped := s1.dropped + 1 }, .refusedP)

/-- The per-event outcome, identified with the exit taken by
`process_input`: the capacity gate, the `except` around validation, the two
handler drop exits, the `except` around a handler `KeyError`, or acceptance. -/
inductive Outcome where
  | accepted : Outcome
  | droppedCapacity : Outcome
  | droppedValidation : Outcome
  | droppedDuplicate : Outcome
  | droppedDenied : Outcome
  | droppedError : Outcome
deriving DecidableEq, Repr

/-- `self._max_packages_count is not None and self._max_packages_count <= 0`. -/
def capacityExhausted (s : ServerState) : Bool :=
  match s.maxCount with
  | some n => n ≤ 0
  | none => false

/-- The decrement applied on an accepted event when a capacity counter is
configured. -/
def decCap (s : ServerState) : ServerState :=
  { s with maxCount := s.maxCount.map (fun n => n - 1) }

/-- `MessageServer.process_input` on one raw line. -/
def processInput (s : ServerState) (i : Parsed) : ServerState × Outcome :=
  if capacityExhausted s then
    ({ s with dropped := s.dropped + 1 }, .droppedCapacity)
  else
    match validateJson i with
    | none => ({ s with dropped := s.dropped + 1 }, .droppedValidation)
    | some (.send ts rid sid pid pt) =>
        match processPackage s ts rid sid pid pt with
        | (s1, .acceptedP) => (decCap s1, .accepted)
        | (s1, .dupP) => (s1, .droppedDuplicate)
        | (s1, .refusedP) => (s1, .droppedDenied)
        | (s1, .errored) => ({ s1 with dropped := s1.dropped + 1 }, .droppedError)
    | some (.upd ts rid p m) =>
        match updatePreference s ts rid p m with
        | (s1, true) => (decCap s1, .accepted)
        | (s1, false) => (s1, .droppedDuplicate)

/-- Run the server over a list of raw lines, collecting per-event outcomes. -/
def runServer : ServerState → List Parsed → ServerState × List Outcome
  | s, [] => (s, [])
  | s, i :: rest =>
      let so := processInput s i
      let tail := runServer so.1 rest
      (tail.1, so.2 :: tail.2)

/-- `MessageServer.results`. -/
def results (s : ServerState) : Nat × Nat :=
  (s.packages.length, s.dropped)

/-- The scalar shapes a validated event field can have. -/
def scalarOk : JValue → Bool
  | .jnull => true
  | .jbool _ => true
  | .jint _ => true
  | .jstr _ => true
  | _ => false

/-- All fields of a `send_package` / `update_preference` event are scalars. -/
def evtScalar : Evt → Bool
  | .send t r sid pid pt =>
      scalarOk t && scalarOk r && scalarOk sid && scalarOk pid && scalarOk pt
  | .upd t r p m => scalarOk t && scalarOk r && scalarOk p && scalarOk m

/-- An `update_preference` raw event setting only `personal_package` to
`false` for recipient 1 (used for the C1 replay scenario). -/
def updPersonalFalse : Parsed :=
  .dict [("action", .jstr "update_preference"), ("timestamp", .jstr "t1"),
    ("recipient_id", .jint 1), ("personal_package", .jbool false)]

/-- The same update with `personal_package = true` and a later timestamp. -/
def updPersonalTrue : Parsed :=
  .dict [("action", .jstr "update_preference"), ("timestamp", .jstr "t2"),
    ("recipient_id", .jint 1), ("personal_package", .jbool true)]

/-- The server state right after accepting `update(1, personal=false)` and
`update(1, personal=true)` would have personal `true`; here we replay the
first update against a state whose ledger already holds it. -/
def c1State : ServerState :=
  { recipients := [("1", ⟨JValue.jint 1, some (JValue.jbool true), none⟩)]
    packages := [Evt.upd (JValue.jstr "t1") (JValue.jint 1) (JValue.jbool false) JValue.jnull]
    dropped := 0
    maxCount := none
    emitted := [Evt.upd (JValue.jstr "t1") (JValue.jint 1) (JValue.jbool false) JValue.jnull] }

/-- An `update_preference` raw event for a never-seen recipient 7 supplying
only `marketing_package = false`. -/
def updMarketingFalse7 : Parsed :=
  .dict [("action", .jstr "update_preference"), ("timestamp", .jstr "t1"),
    ("recipient_id", .jint 7), ("marketing_package", .jbool false)]

/-- A `send_package` raw event whose `sender_id` is the boolean `true`. -/
def sendBoolSender : Parsed :=
  .dict [("action", .jstr "send_package"), ("timestamp", .jstr "t"),
    ("recipient_id", .jint 1), ("sender_id", .jbool true), ("package_id", .jint 2),
    ("package_type", .jstr "personal")]

/-- A one-recipient state used to witness the partial-update frame. -/
def c7State : ServerState :=
  { recipients := [("1", ⟨JValue.jint 1, some (JValue.jbool true), some (JValue.jbool true)⟩)]
    packages := []
    dropped := 0
    maxCount := none
    emitted := [] }

/-- The declared field set of the variant selected by `action` — the keyword
set accepted by its dataclass constructor. -/
def allowedFieldNames (a : String) : List String :=
  if a = "send_package" then sendFieldNames else updFieldNames

/-- An `update_preference` raw event for a never-seen recipient 21 supplying
only `marketing_package = false` (C5 scenario). -/
def c5upd : Parsed :=
  .dict [("action", .jstr "update_preference"), ("timestamp", .jstr "t1"),
    ("recipient_id", .jint 21), ("marketing_package", .jbool false)]

/-- A marketing `send_package` raw event to recipient 21 (C5 scenario). -/
def c5send : Parsed :=
  .dict [("action", .jstr "send_package"), ("timestamp", .jstr "t2"),
    ("recipient_id", .jint 21), ("sender_id", .jint 8), ("package_id", .jint 6901),
    ("package_type", .jstr "marketing")]

/-- The state holding the recipient dict materialized by `c5upd`: marketing
declined, no `personal_package` key. -/
def c5State : ServerState :=
  { recipients := [("21", ⟨JValue.jint 21, none, some (JValue.jbool false)⟩)]
    packages := []
    dropped := 0
    maxCount := none
    emitted := [] }

/-- A well-formed send object carrying one extra, undeclared field. -/
def c10fs : Dict :=
  [("action", .jstr "send_package"), ("timestamp", .jstr "t"),
    ("recipient_id", .jint 1), ("sender_id", .jint 5), ("package_id", .jint 2),
    ("package_type", .jstr "personal"), ("extra", .jint 0)]

/-- A valid personal send to recipient 1 (C9 capacity scenario). -/
def c9sendA : Parsed :=
  .dict [("action", .jstr "send_package"), ("timestamp", .jstr "t1"),
    ("recipient_id", .jint 1), ("sender_id", .jint 5), ("package_id", .jint 10),
    ("package_type", .jstr "personal")]

/-- A distinct valid personal send to recipient 2 (C9 capacity scenario). -/
def c9sendB : Parsed :=
  .dict [("action", .jstr "send_package"), ("timestamp", .jstr "t2"),
    ("recipient_id", .jint 2), ("sender_id", .jint 6), ("package_id", .jint 11),
    ("package_type", .jstr "personal")]

section Lemmas

lemma pyEq_refl {v : JValue} (h : scalarOk v = true) : pyEq v v = true := by
  cases v <;> simp_all [pyEq, scalarOk]

lemma scalarOk_of_isIntPy {v : JValue} (h : isIntPy v = true) : scalarOk v = true := by
  cases v <;> simp_all [isIntPy, scalarOk]

lemma scalarOk_of_isStrPy {v : JValue} (h : isStrPy v = true) : scalarOk v = true := by
  cases v <;> simp_all [isStrPy, scalarOk]

lemma scalarOk_of_isBoolOrNone {v : JValue} (h : isBoolOrNone v = true) :
    scalarOk v = true := by
  cases v <;> simp_all [isBoolOrNone, scalarOk]

lemma evtEq_refl {e : Evt} (h : evtScalar e = true) : evtEq e e = true := by
  cases e <;>
    simp only [evtScalar, Bool.and_eq_true] at h <;>
    simp [evtEq, pyEq_refl, h.1, h.2]

lemma memEvt_append_self {e : Evt} {l : List Evt} (h : evtEq e e = true) :
    memEvt e (l ++ [e]) = true := by
  simp [memEvt, List.any_append, h]

lemma memEvt_false_countP {e : Evt} {l : List Evt} (h : memEvt e l = false) :
    l.countP (fun x => evtEq e x) = 0 := by
  rw [List.countP_eq_zero]
  intro x hx
  simp only [memEvt, List.any_eq_false] at h
  simpa using h x hx

lemma strMem_iff {x : String} {l : List String} : strMem x l = true ↔ x ∈ l := by
  constructor
  · intro h
    rcases List.any_eq_true.mp h with ⟨y, hy, he⟩
    have hxy : x = y := by simpa using he
    subst hxy; exact hy
  · intro h
    exact List.any_eq_true.mpr ⟨x, h, by simp⟩

lemma lookupKey_setKey_self (m : List (String × Rec)) (k : String) (v : Rec) :
    lookupKey (setKey m k v) k = some v := by
  induction m with
  | nil => simp [setKey, lookupKey]
  | cons hd tl ih =>
      obtain ⟨a, b⟩ := hd
      by_cases h : a = k
      · subst h; simp [setKey, lookupKey]
      · simp [setKey, lookupKey, h, ih]

lemma lookupKey_setKey_ne (m : List (String × Rec)) (k k2 : String) (v : Rec)
    (h : k2 ≠ k) : lookupKey (setKey m k v) k2 = lookupKey m k2 := by
  induction m with
  | nil =>
      simp only [setKey, lookupKey, if_neg (show ¬k = k2 from fun hk => h hk.symm)]
  | cons hd tl ih =>
      obtain ⟨a, b⟩ := hd
      by_cases hh : a = k
      · subst hh
        simp only [setKey, if_pos rfl, lookupKey]
        rw [if_neg (show ¬a = k2 from fun hk => h hk.symm),
          if_neg (show ¬a = k2 from fun hk => h hk.symm)]
      · by_cases hk2 : a = k2
        · simp only [setKey, if_neg hh, lookupKey, if_pos hk2]
        · simp only [setKey, if_neg hh, lookupKey, if_neg hk2, ih]

lemma dget_mem_keys {fs : Dict} {k : String}
    (h : (dget fs k).isSome = true) : k ∈ fs.map Prod.fst := by
  induction fs with
  | nil => simp [dget] at h
  | cons hd tl ih =>
      simp only [dget] at h
      rcases htl : dget tl k with _ | w
      · rw [htl] at h
        by_cases hk : hd.1 = k
        · simp [List.map_cons, List.mem_cons, hk.symm]
        · rw [if_neg hk] at h; simp at h
      · exact List.mem_cons_of_mem _ (ih (by simp [htl]))

lemma validateJson_eq_some {i : Parsed} {e : Evt} (h : validateJson i = some e) :
    ∃ fs, i = .dict fs ∧
      ((dget fs "action" = some (.jstr "send_package") ∧ sendOk fs = true ∧ e = mkSend fs)
        ∨ (dget fs "action" = some (.jstr "update_preference") ∧ updOk fs = true
            ∧ e = mkUpd fs)) := by
  cases i with
  | notJson => simp [validateJson] at h
  | nonDict => simp [validateJson] at h
  | dict fs =>
      refine ⟨fs, rfl, ?_⟩
      simp only [validateJson] at h
      cases hact : dget fs "action" with
      | none => rw [hact] at h; simp at h
      | some a =>
          rw [hact] at h
          simp only [] at h
          by_cases hn : a = .jnull
          · rw [if_pos hn] at h; simp at h
          · rw [if_neg hn] at h
            by_cases hs : a = .jstr "send_package"
            · rw [if_pos hs] at h
              subst hs
              by_cases hok : sendOk fs = true
              · rw [if_pos hok] at h
                exact Or.inl ⟨rfl, hok, (Option.some_inj.mp h).symm⟩
              · rw [if_neg hok] at h
                exact absurd h (by simp)
            · rw [if_neg hs] at h
              by_cases hu : a = .jstr "update_preference"
              · rw [if_pos hu] at h
                subst hu
                by_cases hok : updOk fs = true
                · rw [if_pos hok] at h
                  exact Or.inr ⟨rfl, hok, (Option.some_inj.mp h).symm⟩
                · rw [if_neg hok] at h
                  exact absurd h (by simp)
              · rw [if_neg hu] at h
                exact absurd h (by simp)

lemma validateJson_send_facts {i : Parsed} {ts rid sid pid pt : JValue}
    (h : validateJson i = some (.send ts rid sid pid pt)) :
    isStrPy ts = true ∧ isIntPy rid = true ∧ isIntPy sid = true ∧ isIntPy pid = true ∧
      (pt = .jstr "marketing" ∨ pt = .jstr "personal") := by
  rcases validateJson_eq_some h with ⟨fs, _, ⟨_, hok, he⟩ | ⟨_, _, he⟩⟩
  · simp only [mkSend, Evt.send.injEq] at he
    obtain ⟨h1, h2, h3, h4, h5⟩ := he
    subst h1; subst h2; subst h3; subst h4; subst h5
    simp only [sendOk, Bool.and_eq_true, Bool.or_eq_true, decide_eq_true_eq] at hok
    obtain ⟨⟨⟨⟨⟨hkw, hpt⟩, hts⟩, hrid⟩, hsid⟩, hpid⟩ := hok
    exact ⟨hts, hrid, hsid, hpid, hpt⟩
  · simp [mkUpd] at he

lemma validateJson_upd_facts {i : Parsed} {ts rid p m : JValue}
    (h : validateJson i = some (.upd ts rid p m)) :
    isStrPy ts = true ∧ isIntPy rid = true ∧ isBoolOrNone p = true
      ∧ isBoolOrNone m = true ∧ ¬(p = .jnull ∧ m = .jnull) := by
  rcases validateJson_eq_some h with ⟨fs, _, ⟨_, _, he⟩ | ⟨_, hok, he⟩⟩
  · simp [mkSend] at he
  · simp only [mkUpd, Evt.upd.injEq] at he
    obtain ⟨h1, h2, h3, h4⟩ := he
    subst h1; subst h2; subst h3; subst h4
    simp only [updOk, Bool.and_eq_true, Bool.not_eq_true', Bool.and_eq_false_iff,
      decide_eq_true_eq, decide_eq_false_iff_not] at hok
    obtain ⟨⟨⟨⟨⟨hkw, hone⟩, hts⟩, hrid⟩, hp⟩, hm⟩ := hok
    refine ⟨hts, hrid, hp, hm, ?_⟩
    rintro ⟨hp0, hm0⟩
    rcases hone with h0 | h0 <;> exact h0 (by simp [hp0, hm0])

lemma validateJson_evtScalar {i : Parsed} {e : Evt} (h : validateJson i = some e) :
    evtScalar e = true := by
  cases e with
  | send ts rid sid pid pt =>
      obtain ⟨hts, hrid, hsid, hpid, hpt⟩ := validateJson_send_facts h
      have hpt2 : scalarOk pt = true := by
        rcases hpt with h0 | h0 <;> simp [h0, scalarOk]
      simp [evtScalar, scalarOk_of_isStrPy hts, scalarOk_of_isIntPy hrid,
        scalarOk_of_isIntPy hsid, scalarOk_of_isIntPy hpid, hpt2]
  | upd ts rid p m =>
      obtain ⟨hts, hrid, hp, hm, _⟩ := validateJson_upd_facts h
      simp [evtScalar, scalarOk_of_isStrPy hts, scalarOk_of_isIntPy hrid,
        scalarOk_of_isBoolOrNone hp, scalarOk_of_isBoolOrNone hm]

/-- On any validation failure `process_input` only increments the dropped
counter: recipients, packages, emitted output and the capacity counter are
untouched. -/
lemma processInput_validate_fail (s : ServerState) {i : Parsed}
    (h : validateJson i = none) :
    processInput s i = ({ s with dropped := s.dropped + 1 },
      if capacityExhausted s then Outcome.droppedCapacity
      else Outcome.droppedValidation) := by
  unfold processInput
  by_cases hc : capacityExhausted s = true
  · simp [hc]
  · simp [hc, h]

lemma lookupKey_ensureRec_self (recs : List (String × Rec)) (rid : JValue) :
    lookupKey (ensureRec recs rid) (pyStr rid)
      = some ((lookupKey recs (pyStr rid)).getD (defaultRec rid)) := by
  unfold ensureRec
  cases hl : lookupKey recs (pyStr rid) with
  | none => simp [hl, lookupKey_setKey_self]
  | some r => simp [hl]

lemma ensureRec_of_present {recs : List (String × Rec)} {rid : JValue}
    (h : (lookupKey recs (pyStr rid)).isSome = true) : ensureRec recs rid = recs := by
  unfold ensureRec
  cases hl : lookupKey recs (pyStr rid) with
  | none => rw [hl] at h; simp at h
  | some r => simp [hl]

/-- `_process_package` when the event dict is already in `_packages`:
dropped, with the recipient still ensured first. -/
lemma processPackage_dup (s : ServerState) (ts rid sid pid pt : JValue)
    (hdup : memEvt (Evt.send ts rid sid pid pt) s.packages = true) :
    processPackage s ts rid sid pid pt
      = ({ s with
            recipients := ensureRec s.recipients rid
            dropped := s.dropped + 1 }, .dupP) := by
  unfold processPackage
  simp [hdup]

/-- `_process_package` on a fresh event whose recipient (after the ensure
step) allows the package type: emitted, recorded, `True`. -/
lemma processPackage_allowed {s : ServerState} {ts rid sid pid pt : JValue}
    (hfresh : memEvt (Evt.send ts rid sid pid pt) s.packages = false)
    (hallow : isAllowed ((lookupKey s.recipients (pyStr rid)).getD (defaultRec rid)) pt
        = some true) :
    processPackage s ts rid sid pid pt
      = ({ s with
            recipients := ensureRec s.recipients rid
            packages := s.packages ++ [Evt.send ts rid sid pid pt]
            emitted := s.emitted ++ [Evt.send ts rid sid pid pt] }, .acceptedP) := by
  unfold processPackage
  simp [hfresh, lookupKey_ensureRec_self, hallow]

/-- `_process_package` on a fresh event whose recipient refuses the package
type: dropped via the preference test. -/
lemma processPackage_refused {s : ServerState} {ts rid sid pid pt : JValue}
    (hfresh : memEvt (Evt.send ts rid sid pid pt) s.packages = false)
    (hallow : isAllowed ((lookupKey s.recipients (pyStr rid)).getD (defaultRec rid)) pt
        = some false) :
    processPackage s ts rid sid pid pt
      = ({ s with
            recipients := ensureRec s.recipients rid
            dropped := s.dropped + 1 }, .refusedP) := by
  unfold processPackage
  simp [hfresh, lookupKey_ensureRec_self, hallow]

/-- `_process_package` on a fresh event where the preference check raises
`KeyError`: the exception escapes with no counter change in the handler. -/
lemma processPackage_keyError {s : ServerState} {ts rid sid pid pt : JValue}
    (hfresh : memEvt (Evt.send ts rid sid pid pt) s.packages = false)
    (hallow : isAllowed ((lookupKey s.recipients (pyStr rid)).getD (defaultRec rid)) pt
        = none) :
    processPackage s ts rid sid pid pt
      = ({ s with recipients := ensureRec s.recipients rid }, .errored) := by
  unfold processPackage
  simp [hfresh, lookupKey_ensureRec_self, hallow]

/-- `process_input` dispatch on a validated send event, under an open
capacity gate. -/
lemma processInput_send {s : ServerState} {i : Parsed} {ts rid sid pid pt : JValue}
    {s1 : ServerState} {pr : PRes}
    (hv : validateJson i = some (.send ts rid sid pid pt))
    (hcap : capacityExhausted s = false)
    (hpp : processPackage s ts rid sid pid pt = (s1, pr)) :
    processInput s i =
      match pr with
      | .acceptedP => (decCap s1, .accepted)
      | .dupP => (s1, .droppedDuplicate)
      | .refusedP => (s1, .droppedDenied)
      | .errored => ({ s1 with dropped := s1.dropped + 1 }, .droppedError) := by
  cases pr <;> simp [processInput, hcap, hv, hpp]

/-- `process_input` dispatch on a validated update event, under an open
capacity gate. -/
lemma processInput_upd {s : ServerState} {i : Parsed} {ts rid p m : JValue}
    {s1 : ServerState} {b : Bool}
    (hv : validateJson i = some (.upd ts rid p m))
    (hcap : capacityExhausted s = false)
    (hup : updatePreference s ts rid p m = (s1, b)) :
    processInput s i =
      match b with
      | true => (decCap s1, .accepted)
      | false => (s1, .droppedDuplicate) := by
  cases b <;> simp [processInput, hcap, hv, hup]

/-- The capacity gate: a configured, exhausted counter drops any input
before validation. -/
lemma processInput_capacity {s : ServerState} {i : Parsed} {n : Int}
    (h1 : s.maxCount = some n) (h2 : n ≤ 0) :
    processInput s i = ({ s with dropped := s.dropped + 1 }, .droppedCapacity) := by
  have hc : capacityExhausted s = true := by simp [capacityExhausted, h1, h2]
  simp [processInput, hc]

lemma processPackage_maxCount (s : ServerState) (ts rid sid pid pt : JValue) :
    (processPackage s ts rid sid pid pt).1.maxCount = s.maxCount := by
  unfold processPackage
  dsimp only
  split
  · rfl
  · split
    · rfl
    · split <;> rfl

lemma updatePreference_maxCount (s : ServerState) (ts rid p m : JValue) :
    (updatePreference s ts rid p m).1.maxCount = s.maxCount := by
  unfold updatePreference
  dsimp only
  split <;> rfl

lemma updatePreference_recipients (s : ServerState) (ts rid p m : JValue) :
    (updatePreference s ts rid p m).1.recipients
      = applyPrefUpdate s.recipients rid p m := by
  unfold updatePreference
  dsimp only
  split <;> rfl

/-- The capacity counter is decremented exactly on accepted events. -/
lemma processInput_maxCount (s : ServerState) (i : Parsed) :
    ((processInput s i).2 = Outcome.accepted →
        (processInput s i).1.maxCount = s.maxCount.map (fun n => n - 1))
    ∧ ((processInput s i).2 ≠ Outcome.accepted →
        (processInput s i).1.maxCount = s.maxCount) := by
  by_cases hc : capacityExhausted s = true
  · simp [processInput, hc]
  · rw [Bool.not_eq_true] at hc
    cases hv : validateJson i with
    | none => simp [processInput, hc, hv]
    | some e =>
        cases e with
        | send ts rid sid pid pt =>
            rcases hpp : processPackage s ts rid sid pid pt with ⟨s1, pr⟩
            have hmc : s1.maxCount = s.maxCount := by
              have := processPackage_maxCount s ts rid sid pid pt
              rw [hpp] at this; exact this
            rw [processInput_send hv hc hpp]
            cases pr <;> simp [decCap, hmc]
        | upd ts rid p m =>
            rcases hup : updatePreference s ts rid p m with ⟨s1, b⟩
            have hmc : s1.maxCount = s.maxCount := by
              have := updatePreference_maxCount s ts rid p m
              rw [hup] at this; exact this
            rw [processInput_upd hv hc hup]
            cases b <;> simp [decCap, hmc]

/-- A preference update never touches another recipient's entry. -/
lemma applyPrefUpdate_lookup_ne {recs : List (String × Rec)} {rid p m : JValue}
    {k : String} (hk : k ≠ pyStr rid) :
    lookupKey (applyPrefUpdate recs rid p m) k = lookupKey recs k := by
  unfold applyPrefUpdate
  dsimp only
  by_cases habs : (lookupKey recs (pyStr rid)).isNone = true
  · rw [if_pos habs]
    have h1 := lookupKey_setKey_self recs (pyStr rid)
      ⟨rid, if p = .jnull then none else some p, if m = .jnull then none else some m⟩
    simp only [h1]
    rw [lookupKey_setKey_ne _ _ _ _ hk, lookupKey_setKey_ne _ _ _ _ hk]
  · rw [if_neg habs]
    cases hm : lookupKey recs (pyStr rid) with
    | none => simp [hm]
    | some old =>
        simp only [hm]
        rw [lookupKey_setKey_ne _ _ _ _ hk]

/-- A preference update on an existing recipient merges the supplied fields
into the stored dict and overwrites `id`. -/
lemma applyPrefUpdate_lookup_existing {recs : List (String × Rec)} {rid p m : JValue}
    {r : Rec} (hr : lookupKey recs (pyStr rid) = some r) :
    lookupKey (applyPrefUpdate recs rid p m) (pyStr rid)
      = some ⟨rid, if p = .jnull then r.personal else some p,
          if m = .jnull then r.marketing else some m⟩ := by
  unfold applyPrefUpdate
  dsimp only
  simp only [hr, Option.isNone_some, Bool.false_eq_true, if_false]
  exact lookupKey_setKey_self _ _ _

/-- A preference update on an absent recipient inserts a dict holding `id`
and exactly the supplied fields; an unsupplied field has no key at all. -/
lemma applyPrefUpdate_lookup_new {recs : List (String × Rec)} {rid p m : JValue}
    (hr : lookupKey recs (pyStr rid) = none) :
    lookupKey (applyPrefUpdate recs rid p m) (pyStr rid)
      = some ⟨rid, if p = .jnull then none else some p,
          if m = .jnull then none else some m⟩ := by
  unfold applyPrefUpdate
  dsimp only
  have habs : (lookupKey recs (pyStr rid)).isNone = true := by simp [hr]
  rw [if_pos habs]
  have h1 := lookupKey_setKey_self recs (pyStr rid)
    ⟨rid, if p = .jnull then none else some p, if m = .jnull then none else some m⟩
  simp only [h1]
  rw [lookupKey_setKey_self]
  by_cases hp : p = .jnull <;> by_cases hm : m = .jnull <;> simp [hp, hm]

lemma processPackage_recipients (s : ServerState) (ts rid sid pid pt : JValue) :
    (processPackage s ts rid sid pid pt).1.recipients = ensureRec s.recipients rid := by
  unfold processPackage
  dsimp only
  split
  · rfl
  · split
    · rfl
    · split <;> rfl

end Lemmas

section Claims

/-- C1, counterexample.  The claim asserts that replaying a recorded
`UpdatePreference` leaves the Preference Store unchanged — in the concrete
scenario `update(1, personal=v1)`, `update(1, personal=v2)`, replay of the
first, the recipient's `personal_package` should remain `v2 = true`.  In the
code `_update_preference` applies the update to the store before the ledger
test, so the replay is dropped as a duplicate yet `personal_package` is
reverted to `false = v1`. -/
theorem C1_counterexample :
    (runServer (initState none) [updPersonalFalse, updPersonalTrue]).1.recipients
      = [("1", ⟨JValue.jint 1, some (JValue.jbool true), none⟩)]
    ∧ (runServer (initState none) [updPersonalFalse, updPersonalTrue, updPersonalFalse]).2
      = [Outcome.accepted, Outcome.accepted, Outcome.droppedDuplicate]
    ∧ (runServer (initState none)
          [updPersonalFalse, updPersonalTrue, updPersonalFalse]).1.recipients
      = [("1", ⟨JValue.jint 1, some (JValue.jbool false), none⟩)] := by
  refine ⟨by decide, by decide, by decide⟩

/-- C1, amended.  An `UpdatePreference` whose event dict is already in the
ledger is dropped as a duplicate (not re-recorded, not re-emitted), but the
update is still applied to the Preference Store, because `_update_preference`
mutates the store before the duplicate test. -/
theorem C1_duplicate_update_still_applied (s : ServerState) (ts rid p m : JValue)
    (hdup : memEvt (Evt.upd ts rid p m) s.packages = true) :
    updatePreference s ts rid p m
      = ({ s with
            recipients := applyPrefUpdate s.recipients rid p m
            dropped := s.dropped + 1 }, false) := by
  unfold updatePreference
  dsimp only
  simp [hdup]

/-- C1, witness for the amended theorem at a concrete duplicate update. -/
theorem C1_witness :
    updatePreference c1State (JValue.jstr "t1") (JValue.jint 1) (JValue.jbool false)
        JValue.jnull
      = ({ c1State with
            recipients := applyPrefUpdate c1State.recipients (JValue.jint 1)
              (JValue.jbool false) JValue.jnull
            dropped := c1State.dropped + 1 }, false) :=
  C1_duplicate_update_still_applied c1State _ _ _ _ (by decide)

/-- C2, counterexample.  The claim asserts that every materialized recipient
has both preference fields present and boolean, the missing one defaulted to
`true`.  After processing a first-contact update that supplies only
`marketing_package`, the stored recipient dict has no `personal_package` key
at all (`personal = none` in the embedding). -/
theorem C2_counterexample :
    (runServer (initState none) [updMarketingFalse7]).2 = [Outcome.accepted]
    ∧ (runServer (initState none) [updMarketingFalse7]).1.recipients
      = [("7", ⟨JValue.jint 7, none, some (JValue.jbool false)⟩)] := by
  refine ⟨by decide, by decide⟩

/-- C2, amended.  A recipient first created by `_process_package` does get
both preference fields defaulted to `true`; a recipient first created by
`_update_preference` gets exactly the supplied fields — the unsupplied
preference key is absent from the stored dict, not defaulted. -/
theorem C2_materialized_recipient_fields (s : ServerState)
    (ts rid sid pid pt v : JValue)
    (hnew : lookupKey s.recipients (pyStr rid) = none) (hv : v ≠ .jnull) :
    lookupKey (processPackage s ts rid sid pid pt).1.recipients (pyStr rid)
      = some (defaultRec rid)
    ∧ lookupKey (updatePreference s ts rid v .jnull).1.recipients (pyStr rid)
      = some { id := rid, personal := some v, marketing := none }
    ∧ lookupKey (updatePreference s ts rid .jnull v).1.recipients (pyStr rid)
      = some { id := rid, personal := none, marketing := some v } := by
  refine ⟨?_, ?_, ?_⟩
  · rw [processPackage_recipients]
    unfold ensureRec
    simp [hnew, lookupKey_setKey_self]
  · rw [updatePreference_recipients, applyPrefUpdate_lookup_new hnew]
    simp [hv]
  · rw [updatePreference_recipients, applyPrefUpdate_lookup_new hnew]
    simp [hv]

/-- C2, witness at a concrete fresh recipient. -/
theorem C2_witness :
    lookupKey (processPackage (initState none) (JValue.jstr "t") (JValue.jint 7)
        (JValue.jint 1) (JValue.jint 2) (JValue.jstr "personal")).1.recipients
        (pyStr (JValue.jint 7))
      = some (defaultRec (JValue.jint 7))
    ∧ lookupKey (updatePreference (initState none) (JValue.jstr "t") (JValue.jint 7)
        (JValue.jbool false) JValue.jnull).1.recipients (pyStr (JValue.jint 7))
      = some ⟨JValue.jint 7, some (JValue.jbool false), none⟩
    ∧ lookupKey (updatePreference (initState none) (JValue.jstr "t") (JValue.jint 7)
        JValue.jnull (JValue.jbool false)).1.recipients (pyStr (JValue.jint 7))
      = some ⟨JValue.jint 7, none, some (JValue.jbool false)⟩ :=
  C2_materialized_recipient_fields (initState none) _ _ _ _ _ _ rfl (by decide)

/-- C3, counterexample.  The claim asserts a boolean in an integer field
fails validation and drops the event.  Python's `bool` is a subclass of
`int`, so `isinstance(True, int)` holds: the event validates and is even
accepted. -/
theorem C3_counterexample :
    validateJson sendBoolSender
      = some (Evt.send (JValue.jstr "t") (JValue.jint 1) (JValue.jbool true)
          (JValue.jint 2) (JValue.jstr "personal"))
    ∧ (processInput (initState none) sendBoolSender).2 = Outcome.accepted := by
  refine ⟨by decide, by decide⟩

/-- C3, amended.  A float or a string in any of `sender_id`, `recipient_id`,
`package_id` does fail validation (for the send variant via the `isinstance`
check, for the update variant via the `isinstance` check on `recipient_id`
or the `**kwargs` `TypeError` for the other two); booleans, however, pass
because `bool` is a subclass of `int`. -/
theorem C3_float_or_string_rejected (fs : Dict) (k : String) (v : JValue)
    (hk : k = "sender_id" ∨ k = "recipient_id" ∨ k = "package_id")
    (hv : dget fs k = some v)
    (hbad : v = .jfloat ∨ ∃ str, v = .jstr str) :
    validateJson (.dict fs) = none := by
  cases hres : validateJson (.dict fs) with
  | none => rfl
  | some e =>
      exfalso
      rcases validateJson_eq_some hres with ⟨fs2, hfs, hcase⟩
      injection hfs with hfs2
      subst hfs2
      have hbadInt : isIntPy v = false := by
        rcases hbad with rfl | ⟨st, rfl⟩ <;> rfl
      rcases hcase with ⟨ha, hok, _⟩ | ⟨ha, hok, _⟩
      · simp only [sendOk, kwargsOk, Bool.and_eq_true] at hok
        obtain ⟨⟨⟨⟨⟨⟨hkeys, hreq⟩, hpt⟩, hts⟩, hrid⟩, hsid⟩, hpid⟩ := hok
        rcases hk with rfl | rfl | rfl
        · simp only [getF, hv, Option.getD_some] at hsid
          simp [hbadInt] at hsid
        · simp only [getF, hv, Option.getD_some] at hrid
          simp [hbadInt] at hrid
        · simp only [getF, hv, Option.getD_some] at hpid
          simp [hbadInt] at hpid
      · simp only [updOk, kwargsOk, Bool.and_eq_true] at hok
        obtain ⟨⟨⟨⟨⟨⟨hkeys, hreq⟩, hone⟩, hts⟩, hrid⟩, hp⟩, hm⟩ := hok
        rcases hk with rfl | rfl | rfl
        · have hkmem : "sender_id" ∈ fs.map Prod.fst := dget_mem_keys (by simp [hv])
          have hsm := List.all_eq_true.mp hkeys _ hkmem
          have hmem := strMem_iff.mp hsm
          simp [updFieldNames] at hmem
        · simp only [getF, hv, Option.getD_some] at hrid
          simp [hbadInt] at hrid
        · have hkmem : "package_id" ∈ fs.map Prod.fst := dget_mem_keys (by simp [hv])
          have hsm := List.all_eq_true.mp hkeys _ hkmem
          have hmem := strMem_iff.mp hsm
          simp [updFieldNames] at hmem

/-- C3, witness: a string-valued `sender_id` is rejected. -/
theorem C3_witness :
    validateJson (Parsed.dict [("action", JValue.jstr "send_package"),
      ("timestamp", JValue.jstr "t"), ("recipient_id", JValue.jint 1),
      ("sender_id", JValue.jstr "5"), ("package_id", JValue.jint 2),
      ("package_type", JValue.jstr "personal")]) = none :=
  C3_float_or_string_rejected _ "sender_id" (JValue.jstr "5") (Or.inl rfl)
    (by decide) (Or.inr ⟨"5", rfl⟩)

/-- C7: an accepted (indeed, any) `UpdatePreference` supplying only
`marketing_package` leaves the recipient's stored `personal_package`
unchanged and touches no other recipient's entry; symmetrically for an
update supplying only `personal_package`. -/
theorem C7_partial_update_frame (s : ServerState) (ts rid v : JValue)
    (hv : v ≠ .jnull) :
    (∀ k, k ≠ pyStr rid →
        lookupKey (updatePreference s ts rid .jnull v).1.recipients k
            = lookupKey s.recipients k
        ∧ lookupKey (updatePreference s ts rid v .jnull).1.recipients k
            = lookupKey s.recipients k)
    ∧ ∀ r, lookupKey s.recipients (pyStr rid) = some r →
        lookupKey (updatePreference s ts rid .jnull v).1.recipients (pyStr rid)
          = some { id := rid, personal := r.personal, marketing := some v }
        ∧ lookupKey (updatePreference s ts rid v .jnull).1.recipients (pyStr rid)
          = some { id := rid, personal := some v, marketing := r.marketing } := by
  constructor
  · intro k hk
    constructor
    · rw [updatePreference_recipients]
      exact applyPrefUpdate_lookup_ne hk
    · rw [updatePreference_recipients]
      exact applyPrefUpdate_lookup_ne hk
  · intro r hr
    constructor
    · rw [updatePreference_recipients, applyPrefUpdate_lookup_existing hr]
      simp [hv]
    · rw [updatePreference_recipients, applyPrefUpdate_lookup_existing hr]
      simp [hv]

/-- C7, witness at a concrete marketing-only update. -/
theorem C7_witness :
    lookupKey (updatePreference c7State (JValue.jstr "t") (JValue.jint 1) JValue.jnull
        (JValue.jbool false)).1.recipients "2"
      = lookupKey c7State.recipients "2"
    ∧ lookupKey (updatePreference c7State (JValue.jstr "t") (JValue.jint 1) JValue.jnull
        (JValue.jbool false)).1.recipients (pyStr (JValue.jint 1))
      = some ⟨JValue.jint 1, some (JValue.jbool true), some (JValue.jbool false)⟩ := by
  have h := C7_partial_update_frame c7State (JValue.jstr "t") (JValue.jint 1)
    (JValue.jbool false) (by decide)
  exact ⟨(h.1 "2" (by decide)).1,
    (h.2 ⟨JValue.jint 1, some (JValue.jbool true), some (JValue.jbool true)⟩ (by decide)).1⟩

/-- C8: an event that fails validation is dropped without any side effect on
the Preference Store, the Ledger, the emitted output or the capacity counter
(only the dropped counter moves), and the run continues with the remaining
events. -/
theorem C8_validation_failure_no_side_effects (s : ServerState) (i : Parsed)
    (rest : List Parsed) (h : validateJson i = none) :
    processInput s i
      = ({ s with dropped := s.dropped + 1 },
          if capacityExhausted s then Outcome.droppedCapacity
          else Outcome.droppedValidation)
    ∧ (runServer s (i :: rest)).2
      = (if capacityExhausted s then Outcome.droppedCapacity
          else Outcome.droppedValidation)
        :: (runServer { s with dropped := s.dropped + 1 } rest).2 := by
  have hp := processInput_validate_fail s h
  refine ⟨hp, ?_⟩
  simp [runServer, hp]

/-- C8, witness: a syntactically invalid line against the initial state. -/
theorem C8_witness :
    validateJson Parsed.notJson = none
    ∧ processInput (initState none) Parsed.notJson
      = ({ initState none with dropped := (initState none).dropped + 1 },
          if capacityExhausted (initState none) then Outcome.droppedCapacity
          else Outcome.droppedValidation) :=
  ⟨rfl, (C8_validation_failure_no_side_effects (initState none) Parsed.notJson [] rfl).1⟩

/-- C4: a valid send whose recipient (after the default-allow ensure step)
permits its package type, processed twice under sufficient capacity, yields
exactly one `Accepted` followed by one `Dropped(Duplicate)`, exactly one
emission of the event, and exactly one ledger entry for it. -/
theorem C4_idempotent_delivery (s : ServerState) (i : Parsed)
    (ts rid sid pid pt : JValue)
    (hv : validateJson i = some (.send ts rid sid pid pt))
    (hcap : s.maxCount = none ∨ ∃ n : Int, s.maxCount = some n ∧ 2 ≤ n)
    (hfresh : memEvt (Evt.send ts rid sid pid pt) s.packages = false)
    (hallow : isAllowed ((lookupKey s.recipients (pyStr rid)).getD (defaultRec rid)) pt
        = some true) :
    (processInput s i).2 = Outcome.accepted
    ∧ (processInput (processInput s i).1 i).2 = Outcome.droppedDuplicate
    ∧ (processInput (processInput s i).1 i).1.emitted
        = s.emitted ++ [Evt.send ts rid sid pid pt]
    ∧ (processInput (processInput s i).1 i).1.packages.countP
        (fun x => evtEq (Evt.send ts rid sid pid pt) x) = 1 := by
  have hrefl : evtEq (Evt.send ts rid sid pid pt) (Evt.send ts rid sid pid pt) = true :=
    evtEq_refl (validateJson_evtScalar hv)
  have hcap1 : capacityExhausted s = false := by
    rcases hcap with h0 | ⟨n, h0, hn⟩
    · simp [capacityExhausted, h0]
    · simp [capacityExhausted, h0]; omega
  have hpp := processPackage_allowed hfresh hallow
  have h1 := processInput_send hv hcap1 hpp
  dsimp only at h1
  rw [h1]
  dsimp only
  have hcap2 : capacityExhausted
      (decCap { s with
        recipients := ensureRec s.recipients rid
        packages := s.packages ++ [Evt.send ts rid sid pid pt]
        emitted := s.emitted ++ [Evt.send ts rid sid pid pt] }) = false := by
    rcases hcap with h0 | ⟨n, h0, hn⟩
    · simp [capacityExhausted, decCap, h0]
    · simp [capacityExhausted, decCap, h0]; omega
  have hdup2 : memEvt (Evt.send ts rid sid pid pt)
      (s.packages ++ [Evt.send ts rid sid pid pt]) = true :=
    memEvt_append_self hrefl
  have hpp2 := processPackage_dup
    (decCap { s with
      recipients := ensureRec s.recipients rid
      packages := s.packages ++ [Evt.send ts rid sid pid pt]
      emitted := s.emitted ++ [Evt.send ts rid sid pid pt] })
    ts rid sid pid pt hdup2
  have h2 := processInput_send hv hcap2 hpp2
  dsimp only at h2
  rw [h2]
  dsimp only
  refine ⟨rfl, rfl, rfl, ?_⟩
  dsimp only [decCap]
  rw [List.countP_append, memEvt_false_countP hfresh]
  simp [List.countP_cons, hrefl]

/-- C4, witness: the same valid send processed twice from the initial
state. -/
theorem C4_witness :
    (processInput (initState none) c9sendA).2 = Outcome.accepted
    ∧ (processInput (processInput (initState none) c9sendA).1 c9sendA).2
        = Outcome.droppedDuplicate
    ∧ (processInput (processInput (initState none) c9sendA).1 c9sendA).1.emitted
        = (initState none).emitted
          ++ [Evt.send (JValue.jstr "t1") (JValue.jint 1) (JValue.jint 5)
              (JValue.jint 10) (JValue.jstr "personal")]
    ∧ (processInput (processInput (initState none) c9sendA).1 c9sendA).1.packages.countP
        (fun x => evtEq (Evt.send (JValue.jstr "t1") (JValue.jint 1) (JValue.jint 5)
            (JValue.jint 10) (JValue.jstr "personal")) x) = 1 :=
  C4_idempotent_delivery (initState none) c9sendA _ _ _ _ _ (by decide)
    (Or.inl rfl) rfl (by decide)

/-- C5, counterexample.  The claim asserts that a valid, non-duplicate
marketing send to a recipient whose stored `marketing_package` is `false` is
dropped through the preference test (`Dropped(PreferenceDenied)`).  When the
recipient was materialized by a marketing-only update its dict has no
`personal_package` key, so `_is_allowed_package` raises `KeyError` and the
drop happens in the `except` handler instead — a different code path than
the preference refusal, though the event is still dropped. -/
theorem C5_counterexample :
    lookupKey (runServer (initState none) [c5upd]).1.recipients "21"
      = some ⟨JValue.jint 21, none, some (JValue.jbool false)⟩
    ∧ (runServer (initState none) [c5upd, c5send]).2
      = [Outcome.accepted, Outcome.droppedError]
    ∧ Outcome.droppedError ≠ Outcome.droppedDenied := by
  refine ⟨by decide, by decide, by decide⟩

/-- C5, amended.  A valid, non-duplicate marketing send to a recipient whose
stored `marketing_package` is `false` is never accepted, never emitted and
never recorded — the state changes only by the dropped counter.  The drop
reason is the preference refusal when the stored dict has a
`personal_package` key, and the caught `KeyError` when it does not. -/
theorem C5_marketing_optout_never_delivered (s : ServerState) (i : Parsed)
    (ts rid sid pid : JValue) (r : Rec)
    (hv : validateJson i = some (.send ts rid sid pid (.jstr "marketing")))
    (hr : lookupKey s.recipients (pyStr rid) = some r)
    (hm : r.marketing = some (.jbool false))
    (hfresh : memEvt (Evt.send ts rid sid pid (.jstr "marketing")) s.packages = false)
    (hcap : capacityExhausted s = false) :
    processInput s i
      = ({ s with dropped := s.dropped + 1 },
          if r.personal.isSome then Outcome.droppedDenied
          else Outcome.droppedError) := by
  have hpres : (lookupKey s.recipients (pyStr rid)).isSome = true := by simp [hr]
  have hens : ensureRec s.recipients rid = s.recipients := ensureRec_of_present hpres
  have hget : (lookupKey s.recipients (pyStr rid)).getD (defaultRec rid) = r := by
    simp [hr]
  cases hp : r.personal with
  | none =>
      have hallow : isAllowed ((lookupKey s.recipients (pyStr rid)).getD (defaultRec rid))
          (.jstr "marketing") = none := by
        rw [hget]
        simp [isAllowed, hm, hp, isTrue]
      have hpp := processPackage_keyError hfresh hallow
      rw [processInput_send hv hcap hpp]
      dsimp only
      rw [hens]
      rfl
  | some pv =>
      have hallow : isAllowed ((lookupKey s.recipients (pyStr rid)).getD (defaultRec rid))
          (.jstr "marketing") = some false := by
        rw [hget]
        simp [isAllowed, hm, hp, isTrue]
      have hpp := processPackage_refused hfresh hallow
      rw [processInput_send hv hcap hpp]
      dsimp only
      rw [hens]
      rfl

/-- C5, witness: the marketing send against the recipient materialized by a
marketing-only opt-out. -/
theorem C5_witness :
    processInput c5State c5send
      = ({ c5State with dropped := c5State.dropped + 1 },
          if (⟨JValue.jint 21, none, some (JValue.jbool false)⟩ : Rec).personal.isSome
          then Outcome.droppedDenied else Outcome.droppedError) :=
  C5_marketing_optout_never_delivered c5State c5send (JValue.jstr "t2") (JValue.jint 21)
    (JValue.jint 8) (JValue.jint 6901) ⟨JValue.jint 21, none, some (JValue.jbool false)⟩
    (by decide) (by decide) rfl rfl rfl

/-- C6: a valid send to a recipient id absent from the Preference Store and
from the Ledger is accepted (for either package type, since validation only
admits `marketing` and `personal`), and the recipient is created with both
preferences `true`. -/
theorem C6_default_allow (s : ServerState) (i : Parsed) (ts rid sid pid pt : JValue)
    (hv : validateJson i = some (.send ts rid sid pid pt))
    (hnew : lookupKey s.recipients (pyStr rid) = none)
    (hfresh : memEvt (Evt.send ts rid sid pid pt) s.packages = false)
    (hcap : capacityExhausted s = false) :
    processInput s i
      = ({ s with
            recipients := setKey s.recipients (pyStr rid) (defaultRec rid)
            packages := s.packages ++ [Evt.send ts rid sid pid pt]
            emitted := s.emitted ++ [Evt.send ts rid sid pid pt]
            maxCount := s.maxCount.map (fun n => n - 1) }, Outcome.accepted) := by
  have hpt := (validateJson_send_facts hv).2.2.2.2
  have hallow : isAllowed ((lookupKey s.recipients (pyStr rid)).getD (defaultRec rid)) pt
      = some true := by
    rw [hnew]
    rcases hpt with rfl | rfl <;> simp [isAllowed, defaultRec, isTrue]
  have hpp := processPackage_allowed hfresh hallow
  rw [processInput_send hv hcap hpp]
  dsimp only
  have he : ensureRec s.recipients rid = setKey s.recipients (pyStr rid) (defaultRec rid) := by
    unfold ensureRec
    simp [hnew]
  rw [he]
  rfl

/-- C6, witness: a marketing send to the never-seen recipient 3. -/
theorem C6_witness :
    processInput (initState none)
        (Parsed.dict [("action", JValue.jstr "send_package"),
          ("timestamp", JValue.jstr "t"), ("recipient_id", JValue.jint 3),
          ("sender_id", JValue.jint 4), ("package_id", JValue.jint 5),
          ("package_type", JValue.jstr "marketing")])
      = ({ initState none with
            recipients := setKey (initState none).recipients (pyStr (JValue.jint 3))
              (defaultRec (JValue.jint 3))
            packages := (initState none).packages
              ++ [Evt.send (JValue.jstr "t") (JValue.jint 3) (JValue.jint 4)
                  (JValue.jint 5) (JValue.jstr "marketing")]
            emitted := (initState none).emitted
              ++ [Evt.send (JValue.jstr "t") (JValue.jint 3) (JValue.jint 4)
                  (JValue.jint 5) (JValue.jstr "marketing")]
            maxCount := (initState none).maxCount.map (fun n => n - 1) },
          Outcome.accepted) :=
  C6_default_allow (initState none) _ _ _ _ _ _ (by decide) rfl rfl rfl

/-- C9: with a capacity counter configured and exhausted, every event — valid
or not — is dropped as `CapacityExceeded` with no other state change (so
nothing is validated); the counter is decremented exactly on `Accepted`
outcomes; and with capacity 1, two distinct valid sends yield
`[Accepted, Dropped(CapacityExceeded)]`. -/
theorem C9_capacity_cutoff :
    (∀ (s : ServerState) (i : Parsed) (n : Int), s.maxCount = some n → n ≤ 0 →
        processInput s i = ({ s with dropped := s.dropped + 1 },
          Outcome.droppedCapacity))
    ∧ (∀ (s : ServerState) (i : Parsed),
        ((processInput s i).2 = Outcome.accepted →
            (processInput s i).1.maxCount = s.maxCount.map (fun n => n - 1))
        ∧ ((processInput s i).2 ≠ Outcome.accepted →
            (processInput s i).1.maxCount = s.maxCount))
    ∧ (runServer (initState (some 1)) [c9sendA, c9sendB]).2
      = [Outcome.accepted, Outcome.droppedCapacity] := by
  refine ⟨fun s i n h1 h2 => processInput_capacity h1 h2,
    fun s i => processInput_maxCount s i, by decide⟩

/-- C9, witness: a zero capacity drops even an unparsable line before
validation. -/
theorem C9_witness :
    processInput (initState (some 0)) Parsed.nonDict
      = ({ initState (some 0) with dropped := (initState (some 0)).dropped + 1 },
          Outcome.droppedCapacity) :=
  C9_capacity_cutoff.1 (initState (some 0)) Parsed.nonDict 0 rfl (by decide)

/-- C10: a JSON object with a recognized action but a field name outside
that variant's declared schema fails validation (the dataclass constructor
raises `TypeError` on the unexpected keyword), so the whole event is dropped
and the stores are untouched. -/
theorem C10_unknown_field_rejected (s : ServerState) (fs : Dict) (k a : String)
    (ha : dget fs "action" = some (.jstr a))
    (harec : a = "send_package" ∨ a = "update_preference")
    (hk : k ∈ fs.map Prod.fst)
    (hout : k ∉ allowedFieldNames a) :
    validateJson (.dict fs) = none
    ∧ processInput s (.dict fs)
      = ({ s with dropped := s.dropped + 1 },
          if capacityExhausted s then Outcome.droppedCapacity
          else Outcome.droppedValidation) := by
  have hval : validateJson (.dict fs) = none := by
    rcases harec with rfl | rfl
    · have hsfn : k ∉ sendFieldNames := by simpa [allowedFieldNames] using hout
      have hall : ((fs.map Prod.fst).all fun x => strMem x sendFieldNames) = false := by
        cases hA : (fs.map Prod.fst).all fun x => strMem x sendFieldNames
        · rfl
        · exact absurd (strMem_iff.mp (List.all_eq_true.mp hA k hk)) hsfn
      have hs : sendOk fs = false := by simp [sendOk, kwargsOk, hall]
      simp [validateJson, ha, hs]
    · have hufn : k ∉ updFieldNames := by simpa [allowedFieldNames] using hout
      have hall : ((fs.map Prod.fst).all fun x => strMem x updFieldNames) = false := by
        cases hA : (fs.map Prod.fst).all fun x => strMem x updFieldNames
        · rfl
        · exact absurd (strMem_iff.mp (List.all_eq_true.mp hA k hk)) hufn
      have hu : updOk fs = false := by simp [updOk, kwargsOk, hall]
      simp [validateJson, ha, hu]
  exact ⟨hval, processInput_validate_fail s hval⟩

/-- C10, witness: a well-formed send carrying an extra `"extra"` field is
rejected and dropped with no other state change. -/
theorem C10_witness :
    validateJson (.dict c10fs) = none
    ∧ processInput (initState none) (.dict c10fs)
      = ({ initState none with dropped := (initState none).dropped + 1 },
          if capacityExhausted (initState none) then Outcome.droppedCapacity
          else Outcome.droppedValidation) :=
  C10_unknown_field_rejected (initState none) c10fs "extra" "send_package"
    (by decide) (Or.inl rfl) (by decide) (by decide)

end Claims

end DeliveryEngine
